import Mathlib

namespace F1tvDl

/-!
# f1tv-dl — verification of the credential manager, download queue and plan builder

Shallow embedding of the core logic of the f1tv-dl repository:

* `src/lib/token-manager.js` — the `TokenManager` class: cached-token staleness
  checks (`loadTokenFromCache`) and the ordered fallback chain of acquisition
  strategies (`getValidToken`);
* the download queue source file (`src/unnamed/part_002`, class `DownloadQueue`):
  the configuration defaults of the constructor, the retry/backoff failure handler
  (`handleTaskError`), the scheduling loop (`processQueue`/`processTask`)
  modelled as a small-step transition system at `await` granularity, and the
  ffmpeg transport-plan construction inside `downloadVideo`.

External collaborators (network calls, the browser, ffmpeg itself, the file
system) are modelled as oracle inputs: their *results* are parameters of the
embedded functions, exactly where the source `await`s them.
-/

/-! ## Token manager (`src/lib/token-manager.js`)

`TokenManager` constructor state: `maxRetries = 3`, `retryDelay = 2000` ms.
Times are in milliseconds (JavaScript `Date.now()`), token expiry (`exp` of a
JWT payload) in seconds, as in the source. -/

/-- The persisted credential-cache record written by `saveTokenToCache`
(lines 23-36): `{token, source, timestamp, expires}`.  `expires` is the `exp`
field extracted from the JWT payload, `none` when unknown (the source stores
`null`; `extractTokenExpiry` maps a falsy `exp` to `null` as well, so a stored
numeric `expires` of `0` can only come from a hand-edited cache file). -/
structure CacheData where
  token : String
  source : String
  timestamp : Int
  expires : Option Int
  deriving Repr, DecidableEq

/-- Line 47: `tokenData.expires && (tokenData.expires * 1000) < (now + 300000)`.
The JavaScript truthiness test on `tokenData.expires` makes an expiry of `0`
skip the check, hence the explicit `e != 0` conjunct. -/
def cacheExpired (td : CacheData) (now : Int) : Bool :=
  match td.expires with
  | some e => decide (e ≠ 0) && decide (e * 1000 < now + 300000)
  | none => false

/-- Line 53: `now - tokenData.timestamp > 24 * 60 * 60 * 1000`. -/
def cacheTooOld (td : CacheData) (now : Int) : Bool :=
  decide (now - td.timestamp > 24 * 60 * 60 * 1000)

/-- `loadTokenFromCache` (lines 39-64).  The argument `cache` is the parsed
content of `.token-cache.json`; `none` stands for a missing or unreadable
file (both return `null` through the `try/catch`). -/
def loadTokenFromCache (cache : Option CacheData) (now : Int) : Option String :=
  match cache with
  | none => none
  | some td =>
    if cacheExpired td now then none
    else if cacheTooOld td now then none
    else some td.token

/-- Oracle environment for one `getValidToken` call: the results of every
external interaction it can perform, in the places the source `await`s them.
`validates` is the outcome of `validateToken` (lines 78-93; network errors
are caught and become `false` there, so a total boolean is faithful);
`autoExtract` is `autoExtractF1TVCookies` (an exception or a possibly-null
token); `manual` is `loadManualCookie` (lines 177-188, errors already folded
to `null`); `login attempt` is the result of `getF1tvToken` on the given
1-based attempt. -/
structure AuthEnv where
  cache : Option CacheData
  now : Int
  validates : String → Bool
  autoExtract : Except String (Option String)
  manual : Option String
  login : Nat → Except String (Option String)

/-- The error thrown on line 173 when every strategy failed. -/
def authExhaustedMsg : String :=
  "All authentication strategies failed. Please check your credentials or try manual cookie extraction."

/-- Strategy 4 retry loop (lines 147-170): up to `maxRetries` attempts of
`getF1tvToken`; a thrown error sleeps `delay` ms and multiplies the delay by
1.5 (`2000 → 3000 → 4500`, exact on integers) when attempts remain; a null or
invalid token just moves to the next attempt.  Returns the first *validated*
token plus the list of sleeps performed.  `fuel` is the number of attempts
left (`maxRetries` at the initial call). -/
def loginLoop (validates : String → Bool) (login : Nat → Except String (Option String))
    (maxRetries : Nat) : Nat → Nat → Nat → Option String × List Nat
  | _, 0, _ => (none, [])
  | attempt, fuel + 1, delay =>
    match login attempt with
    | .ok (some t) =>
      if validates t then (some t, [])
      else loginLoop validates login maxRetries (attempt + 1) fuel delay
    | .ok none => loginLoop validates login maxRetries (attempt + 1) fuel delay
    | .error _ =>
      if attempt < maxRetries then
        let rest := loginLoop validates login maxRetries (attempt + 1) fuel (delay * 3 / 2)
        (rest.1, delay :: rest.2)
      else loginLoop validates login maxRetries (attempt + 1) fuel delay

/-- Strategy 1 (lines 99-110): the cached token, accepted only if the cache
read succeeds and the liveness check passes. -/
def strategy1 (env : AuthEnv) : Option String :=
  match loadTokenFromCache env.cache env.now with
  | some t => if env.validates t then some t else none
  | none => none

/-- Strategy 2 (lines 112-128): passive browser extraction; a thrown error or
a null token falls through, an invalid token falls through. -/
def strategy2 (env : AuthEnv) : Option String :=
  match env.autoExtract with
  | .ok (some t) => if env.validates t then some t else none
  | .ok none => none
  | .error _ => none

/-- Strategy 3 (lines 130-142): the manual cookie file. -/
def strategy3 (env : AuthEnv) : Option String :=
  match env.manual with
  | some t => if env.validates t then some t else none
  | none => none

/-- Strategy 4 (lines 144-171): automated login, only applicable when both
username and password were provided (`if (user && pass)`); `maxRetries = 3`,
initial `retryDelay = 2000`. -/
def strategy4 (env : AuthEnv) (hasCreds : Bool) : Option String × List Nat :=
  if hasCreds then loginLoop env.validates env.login 3 1 3 2000 else (none, [])

/-- `getValidToken` (lines 96-174).  Returns the result, the list of
`saveTokenToCache` calls `(token, source)` performed (lines 119, 136, 155 —
note the cached-token success on line 106 saves nothing), and the sleeps of
strategy 4. -/
def getValidToken (env : AuthEnv) (hasCreds : Bool) :
    Except String String × List (String × String) × List Nat :=
  match strategy1 env with
  | some t => (.ok t, [], [])
  | none =>
  match strategy2 env with
  | some t => (.ok t, [(t, "browser-auto-extract")], [])
  | none =>
  match strategy3 env with
  | some t => (.ok t, [(t, "manual-cookie-file")], [])
  | none =>
  match strategy4 env hasCreds with
  | (some t, ss) => (.ok t, [(t, "automated-login")], ss)
  | (none, ss) => (.error authExhaustedMsg, [], ss)

/-- A concrete environment where the cache is absent, browser extraction
finds nothing, the manual cookie file holds a live token, and automated login
would fail: strategy 3 wins. -/
def c2DemoEnv : AuthEnv where
  cache := none
  now := 1700000000000
  validates := fun s => s == "manual-tok"
  autoExtract := .ok none
  manual := some "manual-tok"
  login := fun _ => .error "login failed"

/-- A concrete stale cache record: expiry 10 seconds away (inside the
5-minute buffer), written 1 hour ago. -/
def c5DemoCache : CacheData where
  token := "stale-tok"
  source := "automated-login"
  timestamp := 1700000000000 - 3600000
  expires := some 1700000010

def c5DemoEnv : AuthEnv :=
  { c2DemoEnv with cache := some c5DemoCache }

/-! ## Download queue (`src/unnamed/part_002`, class `DownloadQueue`)

A queue task (`addDownload`, lines 430-454), restricted to the fields the
scheduling and retry logic reads or writes.  The timestamps (`addedAt`,
`startedAt`, `completedAt`) and the per-task progress record are carried along
by the source but never drive control flow, so they are omitted.  `id` is the
unique task identifier (`task_${Date.now()}_${random}` in the source). -/

structure Task where
  id : Nat
  attempts : Nat
  status : String
  error : Option String
  deriving Repr, DecidableEq

/-- A task-execution failure, as inspected by `handleTaskError` (line 607):
the message, and whether the error carries an HTTP 429 response
(`error.response && error.response.status === 429`). -/
structure TaskError where
  message : String
  is429 : Bool
  deriving Repr, DecidableEq

/-- Result of one `handleTaskError` call: the sleeps performed (in order, in
milliseconds), the updated pending queue and failed list, the failed-counter
increment, and whether the terminal `taskFailed` event was emitted. -/
structure HandleErrorResult where
  sleeps : List Nat
  queue : List Task
  failed : List Task
  statsFailed : Nat
  emittedFailed : Bool
  deriving Repr, DecidableEq

/-- `handleTaskError` (lines 603-637), as a pure function of the
configuration (`retryAttempts`, `retryDelay`, `rateLimitBackoff`), the
current pending queue and failed list, the failed-stats counter, the task and
the error.  Control flow mirrors the source: a 429 always sleeps the fixed
`rateLimitBackoff` first and re-queues at the head if attempts remain;
otherwise (and for a 429 with attempts exhausted) the generic branch either
sleeps `retryDelay * 2 ^ (attempts - 1)` and re-queues at the head, or moves
the task to `failed` and emits `taskFailed`. -/
def handleTaskError (retryAttempts retryDelay rateLimitBackoff : Nat)
    (queue failed : List Task) (statsFailed : Nat) (task : Task) (err : TaskError) :
    HandleErrorResult :=
  let t := { task with error := some err.message }
  let rateSleeps : List Nat := if err.is429 then [rateLimitBackoff] else []
  if err.is429 && decide (t.attempts < retryAttempts) then
    { sleeps := rateSleeps, queue := t :: queue, failed := failed,
      statsFailed := statsFailed, emittedFailed := false }
  else if t.attempts < retryAttempts then
    { sleeps := rateSleeps ++ [retryDelay * 2 ^ (t.attempts - 1)],
      queue := t :: queue, failed := failed,
      statsFailed := statsFailed, emittedFailed := false }
  else
    { sleeps := rateSleeps, queue := queue,
      failed := failed ++ [{ t with status := "failed" }],
      statsFailed := statsFailed + 1, emittedFailed := true }

/-! ## Stream-plan builder (`downloadVideo`, lines 655-781)

The ffmpeg command construction.  Stream-map selectors are embedded as a
small inductive type whose constructors correspond one-to-one to the format
strings of the source; `Sel.render` reproduces the exact `util.format`
output, so the structured value carries no more and no less information than
the source string. -/

/-- A `-map` selector.  Constructor ↔ source format string:
`dashVideo` ↔ `%d:v:m:id:%d` (lines 667, 691), `hlsVideo` ↔ `%d:p:%d:v`
(lines 667, 691), `dashAudioAll` ↔ `0:a` (line 669), `hlsAudio` ↔
`0:p:%d:a` (line 669), `dashAudioId` ↔ `1:a:m:id:%d` (line 693),
`hlsAudioIdx` ↔ `1:p:%d:a:%d` (line 693). -/
inductive Sel where
  | dashVideo (input trackId : Nat)
  | hlsVideo (input program : Nat)
  | dashAudioAll (input : Nat)
  | hlsAudio (input program : Nat)
  | dashAudioId (input trackId : Nat)
  | hlsAudioIdx (input program idx : Nat)
  deriving Repr, DecidableEq

/-- The exact selector string the source passes to ffmpeg. -/
def Sel.render : Sel → String
  | .dashVideo i t => toString i ++ ":v:m:id:" ++ toString t
  | .hlsVideo i p => toString i ++ ":p:" ++ toString p ++ ":v"
  | .dashAudioAll i => toString i ++ ":a"
  | .hlsAudio i p => toString i ++ ":p:" ++ toString p ++ ":a"
  | .dashAudioId i t => toString i ++ ":a:m:id:" ++ toString t
  | .hlsAudioIdx i p x => toString i ++ ":p:" ++ toString p ++ ":a:" ++ toString x

/-- Whether a selector addresses an audio stream (the selector stream-type
letter is `a`). -/
def Sel.isAudio : Sel → Bool
  | .dashVideo _ _ => false
  | .hlsVideo _ _ => false
  | .dashAudioAll _ => true
  | .hlsAudio _ _ => true
  | .dashAudioId _ _ => true
  | .hlsAudioIdx _ _ _ => true

/-- One element of the ffmpeg output-options vector: either a `-map`
directive (the flag plus its selector) or a literal argument string. -/
inductive FfOpt where
  | map (sel : Sel)
  | arg (value : String)
  deriving Repr, DecidableEq

/-- Flatten to the exact argument vector handed to fluent-ffmpeg. -/
def FfOpt.render : FfOpt → List String
  | .map s => ["-map", s.render]
  | .arg v => [v]

def renderOpts (opts : List FfOpt) : List String :=
  opts.flatMap FfOpt.render

/-- One ffmpeg input: the URL and its input options (lines 734-743). -/
structure FfInput where
  url : String
  inputOpts : List String
  deriving Repr, DecidableEq

/-- The transport plan handed to the muxer: ordered inputs plus the ordered
output-options vector. -/
structure FfCommand where
  inputs : List FfInput
  outputOptions : List FfOpt
  deriving Repr, DecidableEq

/-- Result of `getProgramStreamId`: `{videoId, audioId}`. -/
structure StreamIds where
  videoId : Nat
  audioId : Nat
  deriving Repr, DecidableEq

/-- The task fields `downloadVideo` reads. -/
structure DlTask where
  audioStream : String
  videoSize : String
  format : String
  internationalAudio : Option String
  itsoffset : String
  deriving Repr, DecidableEq

/-- Oracle results for one `downloadVideo` call, in the order the source
`await`s them: the tokenized primary URL, `isRace(content)`, the primary
`getProgramStreamId` result, the tokenized INTERNATIONAL-channel URL and its
`getProgramStreamId` result (the latter two are consulted only when
international audio is included). -/
structure DlEnv where
  f1tvUrl : String
  isRaceContent : Bool
  plDetails : Except String StreamIds
  intlUrl : Except String String
  intlDetails : Except String StreamIds

/-- Character-list prefix test (helper for the substring test below). -/
def charsPrefix : List Char → List Char → Bool
  | [], _ => true
  | _ :: _, [] => false
  | a :: as, b :: bs => a == b && charsPrefix as bs

/-- Character-list substring test (JavaScript `indexOf(sub) != -1`). -/
def charsContain (sub : List Char) : List Char → Bool
  | [] => charsPrefix sub []
  | c :: cs => charsPrefix sub (c :: cs) || charsContain sub cs

/-- Line 658: `useDash = (f1tvUrl.indexOf(m3u8) == -1)`. -/
def useDashOf (f1tvUrl : String) : Bool :=
  ! charsContain "m3u8".data f1tvUrl.data

/-- Lines 667-668: the primary video selector. -/
def videoSelect (useDash : Bool) (programStream : Nat) : Sel :=
  if useDash then .dashVideo 0 programStream else .hlsVideo 0 programStream

/-- Line 669: the primary audio selector. -/
def audioSelect (useDash : Bool) (programStream : Nat) : Sel :=
  if useDash then .dashAudioAll 0 else .hlsAudio 0 programStream

/-- Lines 691-692: the international-feed video selector. -/
def intlVideoSelect (useDash : Bool) (intlVideoId : Nat) : Sel :=
  if useDash then .dashVideo 1 intlVideoId else .hlsVideo 1 intlVideoId

/-- Lines 693-694: the international-feed audio selector (note the HLS form
reuses the *primary* program number). -/
def intlAudioSelect (useDash : Bool) (programStream intlAudioId : Nat) : Sel :=
  if useDash then .dashAudioId 1 intlAudioId else .hlsAudioIdx 1 programStream intlAudioId

/-- Lines 674-678. -/
def baseInputOptions : List String :=
  ["-probesize", "24M", "-analyzeduration", "6M", "-rtbufsize", "2147M"]

/-- Lines 704-710: codec parameters when international audio is included —
copy audio, tag and *default* the first audio stream (the primary feed), tag
the second (international) stream and clear its default disposition. -/
def intlCodecParams (intlLangId : String) : List FfOpt :=
  [ .arg "-c:a", .arg "copy",
    .arg "-metadata:s:a:0", .arg "language=eng",
    .arg "-disposition:a:0", .arg "default",
    .arg "-metadata:s:a:1", .arg ("language=" ++ intlLangId),
    .arg "-disposition:a:1", .arg "0" ]

/-- Lines 715-731: the output-options vector; mp4 additionally applies the
`aac_adtstoasc` bitstream filter and `faststart`. -/
def mkOptions (videoSel : Sel) (audioStreamMapping audioCodecParameters : List FfOpt)
    (format : String) : List FfOpt :=
  if format == "mp4" then
    [FfOpt.map videoSel] ++ audioStreamMapping ++ [.arg "-c:v", .arg "copy"] ++
      audioCodecParameters ++
      [.arg "-bsf:a", .arg "aac_adtstoasc", .arg "-movflags", .arg "faststart", .arg "-y"]
  else
    [FfOpt.map videoSel] ++ audioStreamMapping ++ [.arg "-c:v", .arg "copy"] ++
      audioCodecParameters ++ [.arg "-y"]

/-- The command built when no international audio is included (the `else`
shape of lines 671-672, 715-731, 740-743): one input, one audio map, plain
copy codec parameters. -/
def buildCommandPlain (task : DlTask) (f1tvUrl : String) (pl : StreamIds) : FfCommand :=
  let useDash := useDashOf f1tvUrl
  { inputs := [⟨f1tvUrl, baseInputOptions⟩],
    outputOptions :=
      mkOptions (videoSelect useDash pl.videoId)
        [FfOpt.map (audioSelect useDash pl.videoId)]
        [.arg "-c:a", .arg "copy"] task.format }

/-- The command built when international audio is included (lines 683-711,
733-739): a second input carrying the `-itsoffset` alignment, the
three-element `audioStreamMapping` of lines 696-700 — international video,
primary audio, international audio — and the dual-audio codec parameters.
Line 702: an `eng` secondary track is relabelled `Sky`; other languages pass
through. -/
def buildCommandIntl (task : DlTask) (f1tvUrl : String) (pl : StreamIds)
    (intlUrl : String) (idts : StreamIds) : FfCommand :=
  let useDash := useDashOf f1tvUrl
  let intlLangId :=
    if task.internationalAudio = some "eng" then "Sky"
    else task.internationalAudio.getD ""
  { inputs := [⟨f1tvUrl, baseInputOptions⟩,
               ⟨intlUrl, baseInputOptions ++ ["-itsoffset", task.itsoffset]⟩],
    outputOptions :=
      mkOptions (videoSelect useDash pl.videoId)
        [ .map (intlVideoSelect useDash idts.videoId),
          .map (audioSelect useDash pl.videoId),
          .map (intlAudioSelect useDash pl.videoId idts.audioId) ]
        (intlCodecParams intlLangId) task.format }

/-- The plan-building part of `downloadVideo` (lines 655-743), up to the
point the fluent-ffmpeg command is launched.  Note that the source
*silently skips* the international audio whenever `isRace(content)` is
false (line 683): there is no eligibility error of any kind, so the only
failures are propagated oracle failures. -/
def buildCommand (task : DlTask) (env : DlEnv) : Except String FfCommand := do
  let plDetails ← env.plDetails
  if task.internationalAudio.isSome && env.isRaceContent then
    let intlUrl ← env.intlUrl
    let intlDetails ← env.intlDetails
    return buildCommandIntl task env.f1tvUrl plDetails intlUrl intlDetails
  else
    return buildCommandPlain task env.f1tvUrl plDetails

/-- The ordered list of `-map` selectors of an output-options vector. -/
def mapSels (opts : List FfOpt) : List Sel :=
  opts.filterMap fun o => match o with | .map s => some s | .arg _ => none

/-- The ordered list of *audio* `-map` selectors. -/
def audioMaps (opts : List FfOpt) : List Sel :=
  (mapSels opts).filter Sel.isAudio

/-- A secondary-audio selection (Dutch) on non-race content. -/
def c6DemoTask : DlTask :=
  { audioStream := "eng", videoSize := "best", format := "mp4",
    internationalAudio := some "nld", itsoffset := "-00:00:04.750" }

def c6DemoEnv : DlEnv :=
  { f1tvUrl := "https://example.com/stream/index.mpd", isRaceContent := false,
    plDetails := .ok ⟨5, 2⟩, intlUrl := .ok "https://example.com/intl/index.mpd",
    intlDetails := .ok ⟨11, 3⟩ }

/-- A secondary-audio selection (German) on race content, DASH transport. -/
def c7DemoTask : DlTask :=
  { audioStream := "eng", videoSize := "best", format := "mp4",
    internationalAudio := some "deu", itsoffset := "-00:00:04.750" }

def c7DemoEnv : DlEnv :=
  { f1tvUrl := "https://example.com/race/index.mpd", isRaceContent := true,
    plDetails := .ok ⟨5, 2⟩, intlUrl := .ok "https://example.com/intl/index.mpd",
    intlDetails := .ok ⟨11, 3⟩ }

/-- A secondary-audio selection (French) on non-race content, mp4. -/
def c8DemoTask : DlTask :=
  { audioStream := "eng", videoSize := "best", format := "mp4",
    internationalAudio := some "fra", itsoffset := "-00:00:04.750" }

def c8DemoEnv : DlEnv :=
  { f1tvUrl := "https://example.com/show/index.mpd", isRaceContent := false,
    plDetails := .ok ⟨4, 1⟩, intlUrl := .ok "https://example.com/intl/index.mpd",
    intlDetails := .ok ⟨10, 6⟩ }

/-! ## Scheduler state machine (`DownloadQueue`, lines 401-550, 553-637)

The scheduling loop (`processQueue`) and the per-task executions
(`processTask`, with `handleTaskError` inlined) run cooperatively on the
JavaScript event loop: shared state is mutated only in the synchronous
segments between `await`s.  The machine below has one transition per such
segment; its states are therefore exactly the *observable instants* of the
queue (the suspension points).  `start`/`stop`/`pause`/`resume` only gate
which transitions may fire (they toggle `isRunning`/`isPaused` and never
touch the collections), so the machine leaves the flags inert and allows a
superset of the gated behaviours: safety invariants proved over all its
reachable states hold a fortiori of the real system.  `clearHistory` is an
external maintenance call, embedded separately below, not a scheduler step.
`submitted` is a ghost history variable recording every id that ever passed
through `addDownload`. -/

/-- `this.stats` (lines 420-426). -/
structure Stats where
  totalQueued : Nat
  completed : Nat
  failed : Nat
  bytesDownloaded : Nat
  averageSpeed : Nat
  deriving Repr, DecidableEq

/-- Where a launched task continuation stands, at `await` granularity:
`running` — inside `processTask` between launch and the outcome of
`downloadVideo`; `sleeping is429` — inside one of the backoff sleeps of
`handleTaskError` (lines 609, 625); `requeued` — after the `queue.unshift`
(lines 614, 626) but before the `finally`-block removal from `active` (lines
589-592); `failedMarked` — after the `failed.push` (line 632) but before
that same removal. -/
inductive JobPhase where
  | running
  | sleeping (is429 : Bool)
  | requeued
  | failedMarked
  deriving Repr, DecidableEq

/-- The whole queue object: configuration from the constructor (lines
405-409), the four collections (lines 411-414), the flags (lines 416-417),
the stats, the per-task continuation phases and the ghost submission log. -/
structure SysState where
  maxConcurrent : Nat
  delayBetweenDownloads : Nat
  retryAttempts : Nat
  retryDelay : Nat
  rateLimitBackoff : Nat
  queue : List Task
  active : List Task
  completed : List Task
  failed : List Task
  isRunning : Bool
  isPaused : Bool
  stats : Stats
  phase : Nat → Option JobPhase
  submitted : List Nat

/-- JavaScript `x || d` on an optional numeric option (`undefined` and `0`
are both falsy). -/
def jsOr (o : Option Nat) (d : Nat) : Nat :=
  match o with
  | none => d
  | some 0 => d
  | some n => n

/-- Line 405: `this.maxConcurrent = Math.min(options.maxConcurrent || 1, 3)`. -/
def mkMaxConcurrent (requested : Option Nat) : Nat :=
  Nat.min (jsOr requested 1) 3

/-- The constructor options (lines 402-409); `delay` in seconds, the rest in
milliseconds. -/
structure QueueOptions where
  maxConcurrent : Option Nat
  delay : Option Nat
  retryAttempts : Option Nat
  retryDelay : Option Nat
  rateLimitBackoff : Option Nat
  deriving Repr, DecidableEq

/-- The freshly constructed queue (lines 402-427). -/
def initState (opts : QueueOptions) : SysState where
  maxConcurrent := mkMaxConcurrent opts.maxConcurrent
  delayBetweenDownloads := (jsOr opts.delay 30) * 1000
  retryAttempts := jsOr opts.retryAttempts 3
  retryDelay := jsOr opts.retryDelay 5000
  rateLimitBackoff := jsOr opts.rateLimitBackoff 60000
  queue := []
  active := []
  completed := []
  failed := []
  isRunning := false
  isPaused := false
  stats := { totalQueued := 0, completed := 0, failed := 0,
             bytesDownloaded := 0, averageSpeed := 0 }
  phase := fun _ => none
  submitted := []

/-- The ids of a task list. -/
def ids (l : List Task) : List Nat :=
  l.map Task.id

/-- `active.splice(index, 1)` after `findIndex` (lines 589-592): remove the
first task with the given id. -/
def eraseById : List Task → Nat → List Task
  | [], _ => []
  | t :: ts, i => if t.id = i then ts else t :: eraseById ts i

/-- In-place mutation of the task object with the given id (JavaScript
object identity: the copy held by `active` is updated). -/
def updateById (l : List Task) (i : Nat) (f : Task → Task) : List Task :=
  l.map fun t => if t.id = i then f t else t

/-- Pointwise update of the continuation-phase map. -/
def setPhase (f : Nat → Option JobPhase) (i : Nat) (p : Option JobPhase) :
    Nat → Option JobPhase :=
  fun j => if j = i then p else f j

/-- One synchronous segment of the queue execution (one transition per
`await`-delimited mutation site of the source).  Guards carry the branch
conditions of the corresponding source lines. -/
inductive Step : SysState → SysState → Prop where
  /-- `addDownload` (lines 430-472): a validated task is appended to the
  pending tail with `status: queued`, `attempts: 0`, and a fresh id
  (`task_${Date.now()}_${random}`); `stats.totalQueued++`.  An invalid URL
  throws before any mutation, so it is not a transition. -/
  | enqueue (s : SysState) (t : Task)
      (hstatus : t.status = "queued") (hatt : t.attempts = 0)
      (hfresh : s.phase t.id = none ∧ t.id ∉ ids s.queue ∧ t.id ∉ ids s.active ∧
        t.id ∉ ids s.completed ∧ t.id ∉ ids s.failed) :
      Step s { s with queue := s.queue ++ [t],
                      submitted := s.submitted ++ [t.id],
                      stats := { s.stats with totalQueued := s.stats.totalQueued + 1 } }
  /-- `processQueue` admission (lines 527-534) fused with the synchronous
  prefix of `processTask` (lines 555-557, up to the first `await`): guarded
  by `active.length < maxConcurrent`, the pending head moves to `active`
  with `status := downloading` and `attempts++`, and its execution is
  launched.  The head can have no live continuation: a task re-queued by
  `handleTaskError` is spliced out of `active` by a microtask that runs
  before the next timer-driven check of the scheduler. -/
  | launch (s : SysState) (t : Task) (rest : List Task)
      (hq : s.queue = t :: rest)
      (hcap : s.active.length < s.maxConcurrent)
      (hidle : s.phase t.id = none) :
      Step s { s with queue := rest,
                      active := s.active ++
                        [{ t with status := "downloading", attempts := t.attempts + 1 }],
                      phase := setPhase s.phase t.id (some .running) }
  /-- Successful completion (lines 577-583 and the `finally` splice, lines
  589-592, one synchronous segment): the task moves from `active` to
  `completed`, `stats.completed++`. -/
  | succeed (s : SysState) (t : Task)
      (hmem : t ∈ s.active) (hph : s.phase t.id = some .running) :
      Step s { s with active := eraseById s.active t.id,
                      completed := s.completed ++ [{ t with status := "completed" }],
                      stats := { s.stats with completed := s.stats.completed + 1 },
                      phase := setPhase s.phase t.id none }
  /-- A failure entering one of the backoff sleeps of `handleTaskError`: a 429
  always sleeps the rate-limit window first (line 609); any other error
  sleeps the exponential delay only if attempts remain (lines 620-625).
  `task.error` is set (line 604); the task stays in `active`. -/
  | failSleep (s : SysState) (t : Task) (is429 : Bool) (msg : String)
      (hmem : t ∈ s.active) (hph : s.phase t.id = some .running)
      (hguard : is429 = true ∨ t.attempts < s.retryAttempts) :
      Step s { s with
                active := updateById s.active t.id (fun u => { u with error := some msg }),
                phase := setPhase s.phase t.id (some (.sleeping is429)) }
  /-- A non-429 failure with attempts exhausted reaches the terminal branch
  with no sleep (lines 604, 630-636): the task is pushed onto `failed`
  (still a member of `active` until the `finally` splice), `stats.failed++`,
  `taskFailed` is emitted. -/
  | failDirect (s : SysState) (t : Task) (msg : String)
      (hmem : t ∈ s.active) (hph : s.phase t.id = some .running)
      (hexh : s.retryAttempts ≤ t.attempts) :
      Step s { s with
                active := updateById s.active t.id
                  (fun u => { u with error := some msg, status := "failed" }),
                failed := s.failed ++ [{ t with error := some msg, status := "failed" }],
                stats := { s.stats with failed := s.stats.failed + 1 },
                phase := setPhase s.phase t.id (some .failedMarked) }
  /-- Waking from a backoff sleep with attempts remaining: `queue.unshift`
  re-inserts the task at the pending head (lines 612-615, 620-627) while it
  is still a member of `active`.  For the non-429 sleep the attempts check
  already happened before sleeping. -/
  | resumeRequeue (s : SysState) (t : Task) (b : Bool)
      (hmem : t ∈ s.active) (hph : s.phase t.id = some (.sleeping b))
      (hatt : b = true → t.attempts < s.retryAttempts) :
      Step s { s with queue := t :: s.queue,
                      phase := setPhase s.phase t.id (some .requeued) }
  /-- Waking from the 429 sleep with attempts exhausted: control falls
  through to the terminal branch (lines 630-636). -/
  | resumeFail (s : SysState) (t : Task)
      (hmem : t ∈ s.active) (hph : s.phase t.id = some (.sleeping true))
      (hexh : s.retryAttempts ≤ t.attempts) :
      Step s { s with
                active := updateById s.active t.id (fun u => { u with status := "failed" }),
                failed := s.failed ++ [{ t with status := "failed" }],
                stats := { s.stats with failed := s.stats.failed + 1 },
                phase := setPhase s.phase t.id (some .failedMarked) }
  /-- The `finally`-block splice (lines 588-592), resuming after
  `handleTaskError` resolved: the task leaves `active`; it already sits in
  `queue` (requeued) or in `failed` (terminal). -/
  | finishSplice (s : SysState) (i : Nat) (p : JobPhase)
      (hph : s.phase i = some p)
      (hdone : p = .requeued ∨ p = .failedMarked) :
      Step s { s with active := eraseById s.active i,
                      phase := setPhase s.phase i none }

/-- Reflexive-transitive closure of `Step`: the states reachable from a
given queue state — the queue observable instants. -/
inductive Reach : SysState → SysState → Prop where
  | refl (s : SysState) : Reach s s
  | tail {s t u : SysState} : Reach s t → Step t u → Reach s u

/-- `getStatus` (lines 815-827). -/
structure QueueStatus where
  isRunning : Bool
  isPaused : Bool
  queueLength : Nat
  activeDownloads : Nat
  completedDownloads : Nat
  failedDownloads : Nat
  stats : Stats
  maxConcurrent : Nat
  delayBetweenDownloads : Nat
  deriving Repr, DecidableEq

def getStatus (s : SysState) : QueueStatus where
  isRunning := s.isRunning
  isPaused := s.isPaused
  queueLength := s.queue.length
  activeDownloads := s.active.length
  completedDownloads := s.completed.length
  failedDownloads := s.failed.length
  stats := s.stats
  maxConcurrent := s.maxConcurrent
  delayBetweenDownloads := s.delayBetweenDownloads

/-- `clearHistory` (lines 835-839): empty the completed and failed lists,
touch nothing else. -/
def clearHistory (s : SysState) : SysState :=
  { s with completed := [], failed := [] }

/-- How many of the four collections hold a task with this id (counting
duplicates). -/
def collCount (s : SysState) (i : Nat) : Nat :=
  (ids s.queue).count i + (ids s.active).count i +
    (ids s.completed).count i + (ids s.failed).count i

/-- A configuration requesting 10 concurrent downloads. -/
def c1DemoOpts : QueueOptions :=
  { maxConcurrent := some 10, delay := none, retryAttempts := none,
    retryDelay := none, rateLimitBackoff := none }

/-- The membership invariant tying each task continuation phase to its
collection memberships: ids are unique per collection; pending, completed and
failed are pairwise disjoint; a task has a live continuation exactly while it
is in `active`; and the phase dictates where else the task may appear —
nowhere while running or sleeping, in `queue` exactly while `requeued`, in
`failed` exactly while `failedMarked`.  Every submitted id is in at least one
collection. -/
structure Inv (s : SysState) : Prop where
  nodupQ : (ids s.queue).Nodup
  nodupA : (ids s.active).Nodup
  nodupC : (ids s.completed).Nodup
  nodupF : (ids s.failed).Nodup
  qcDisj : ∀ i, i ∈ ids s.queue → i ∉ ids s.completed
  qfDisj : ∀ i, i ∈ ids s.queue → i ∉ ids s.failed
  cfDisj : ∀ i, i ∈ ids s.completed → i ∉ ids s.failed
  phaseActive : ∀ i, (s.phase i).isSome = true ↔ i ∈ ids s.active
  phaseRun : ∀ i, s.phase i = some .running →
    i ∉ ids s.queue ∧ i ∉ ids s.completed ∧ i ∉ ids s.failed
  phaseSleep : ∀ i b, s.phase i = some (.sleeping b) →
    i ∉ ids s.queue ∧ i ∉ ids s.completed ∧ i ∉ ids s.failed
  phaseRequeued : ∀ i, s.phase i = some .requeued →
    i ∈ ids s.queue ∧ i ∉ ids s.completed ∧ i ∉ ids s.failed
  phaseFailedM : ∀ i, s.phase i = some .failedMarked →
    i ∈ ids s.failed ∧ i ∉ ids s.queue ∧ i ∉ ids s.completed
  cover : ∀ i, i ∈ s.submitted →
    i ∈ ids s.queue ∨ i ∈ ids s.active ∨ i ∈ ids s.completed ∨ i ∈ ids s.failed

/-- Configuration with `retryAttempts = 1`: the first failure is terminal. -/
def c9Opts : QueueOptions :=
  { maxConcurrent := none, delay := none, retryAttempts := some 1,
    retryDelay := none, rateLimitBackoff := none }

def c9Task : Task := { id := 0, attempts := 0, status := "queued", error := none }

def c9s0 : SysState := initState c9Opts

/-- After `addDownload`. -/
def c9s1 : SysState :=
  { c9s0 with queue := c9s0.queue ++ [c9Task],
              submitted := c9s0.submitted ++ [c9Task.id],
              stats := { c9s0.stats with totalQueued := c9s0.stats.totalQueued + 1 } }

/-- After the scheduler admits the task. -/
def c9s2 : SysState :=
  { c9s1 with queue := [],
              active := c9s1.active ++
                [{ c9Task with status := "downloading", attempts := c9Task.attempts + 1 }],
              phase := setPhase c9s1.phase c9Task.id (some .running) }

/-- The task object while downloading. -/
def c9ActiveTask : Task := { id := 0, attempts := 1, status := "downloading", error := none }

/-- After the terminal branch of `handleTaskError` (line 632, `failed.push`)
and before the `finally`-block splice (lines 589-592): the task is in both
`active` and `failed`. -/
def c9s3 : SysState :=
  { c9s2 with
      active := updateById c9s2.active c9ActiveTask.id
        (fun u => { u with error := some "ffmpeg exited with code 1", status := "failed" }),
      failed := c9s2.failed ++
        [{ c9ActiveTask with error := some "ffmpeg exited with code 1", status := "failed" }],
      stats := { c9s2.stats with failed := c9s2.stats.failed + 1 },
      phase := setPhase c9s2.phase c9ActiveTask.id (some .failedMarked) }

lemma strategy1_validates {env : AuthEnv} {t : String} (h : strategy1 env = some t) :
    env.validates t = true := by
  unfold strategy1 at h
  rcases hc : loadTokenFromCache env.cache env.now with _ | u <;> rw [hc] at h
  · exact absurd h (by simp)
  · by_cases hv : env.validates u = true <;> simp [hv] at h
    exact h ▸ hv

lemma strategy2_validates {env : AuthEnv} {t : String} (h : strategy2 env = some t) :
    env.validates t = true := by
  unfold strategy2 at h
  rcases he : env.autoExtract with e | u <;> rw [he] at h
  · exact absurd h (by simp)
  · rcases u with _ | u
    · exact absurd h (by simp)
    · by_cases hv : env.validates u = true <;> simp [hv] at h
      exact h ▸ hv

lemma strategy3_validates {env : AuthEnv} {t : String} (h : strategy3 env = some t) :
    env.validates t = true := by
  unfold strategy3 at h
  rcases he : env.manual with _ | u <;> rw [he] at h
  · exact absurd h (by simp)
  · by_cases hv : env.validates u = true <;> simp [hv] at h
    exact h ▸ hv

lemma loginLoop_validates {v : String → Bool} {lg : Nat → Except String (Option String)}
    {m : Nat} {t : String} :
    ∀ {a fuel d}, (loginLoop v lg m a fuel d).1 = some t → v t = true := by
  intro a fuel
  induction fuel generalizing a with
  | zero => intro d h; simp [loginLoop] at h
  | succ n ih =>
    intro d h
    unfold loginLoop at h
    rcases he : lg a with e | u <;> rw [he] at h
    · by_cases hlt : a < m <;> simp [hlt] at h
      · exact ih h
      · exact ih h
    · rcases u with _ | u
      · exact ih h
      · by_cases hv : v u = true <;> simp [hv] at h
        · exact h ▸ hv
        · exact ih h

lemma strategy4_validates {env : AuthEnv} {hc : Bool} {t : String}
    (h : (strategy4 env hc).1 = some t) : env.validates t = true := by
  unfold strategy4 at h
  by_cases hb : hc = true <;> simp [hb] at h
  exact loginLoop_validates h

/-- C2.  `getValidToken` tries the strategies in the fixed order cache →
passive browser extraction → manual cookie file → automated login; a returned
token always passed the liveness check (`validateToken`); a non-cached winner
is persisted through `saveTokenToCache` tagged with its originating strategy
(and a cache hit saves nothing); the all-strategies-failed error is thrown
exactly when every strategy fails or does not apply (strategy 4 applies only
when credentials were supplied). -/
theorem getValidToken_strategy_chain (env : AuthEnv) (hc : Bool) :
    (∀ t, (getValidToken env hc).1 = .ok t →
      env.validates t = true ∧
      ((strategy1 env = some t ∧ (getValidToken env hc).2.1 = []) ∨
       (strategy1 env = none ∧ strategy2 env = some t ∧
         (getValidToken env hc).2.1 = [(t, "browser-auto-extract")]) ∨
       (strategy1 env = none ∧ strategy2 env = none ∧ strategy3 env = some t ∧
         (getValidToken env hc).2.1 = [(t, "manual-cookie-file")]) ∨
       (strategy1 env = none ∧ strategy2 env = none ∧ strategy3 env = none ∧
         (strategy4 env hc).1 = some t ∧
         (getValidToken env hc).2.1 = [(t, "automated-login")]))) ∧
    ((getValidToken env hc).1 = .error authExhaustedMsg ↔
      strategy1 env = none ∧ strategy2 env = none ∧ strategy3 env = none ∧
        (strategy4 env hc).1 = none) := by
  rcases h1 : strategy1 env with _ | t1
  · rcases h2 : strategy2 env with _ | t2
    · rcases h3 : strategy3 env with _ | t3
      · rcases h4 : strategy4 env hc with ⟨r4, ss⟩
        rcases r4 with _ | t4
        · refine ⟨fun t ht => ?_, by simp [getValidToken, h1, h2, h3, h4]⟩
          simp [getValidToken, h1, h2, h3, h4] at ht
        · refine ⟨fun t ht => ?_, by simp [getValidToken, h1, h2, h3, h4]⟩
          simp [getValidToken, h1, h2, h3, h4] at ht
          subst ht
          exact ⟨strategy4_validates (by rw [h4]), by simp [getValidToken, h1, h2, h3, h4]⟩
      · refine ⟨fun t ht => ?_, by simp [getValidToken, h1, h2, h3]⟩
        simp [getValidToken, h1, h2, h3] at ht
        subst ht
        exact ⟨strategy3_validates h3, by simp [getValidToken, h1, h2, h3]⟩
    · refine ⟨fun t ht => ?_, by simp [getValidToken, h1, h2]⟩
      simp [getValidToken, h1, h2] at ht
      subst ht
      exact ⟨strategy2_validates h2, by simp [getValidToken, h1, h2]⟩
  · refine ⟨fun t ht => ?_, by simp [getValidToken, h1]⟩
    simp [getValidToken, h1] at ht
    subst ht
    exact ⟨strategy1_validates h1, by simp [getValidToken, h1]⟩

theorem getValidToken_strategy_chain_witness :
    (getValidToken c2DemoEnv true).1 = .ok "manual-tok" ∧
    c2DemoEnv.validates "manual-tok" = true ∧
    (getValidToken c2DemoEnv true).2.1 = [("manual-tok", "manual-cookie-file")] :=
  ⟨by rfl, ((getValidToken_strategy_chain c2DemoEnv true).1 "manual-tok" (by rfl)).1, by rfl⟩

lemma strategy2_cache_irrelevant (env : AuthEnv) (c : Option CacheData) :
    strategy2 { env with cache := c } = strategy2 env := rfl

lemma strategy3_cache_irrelevant (env : AuthEnv) (c : Option CacheData) :
    strategy3 { env with cache := c } = strategy3 env := rfl

lemma strategy4_cache_irrelevant (env : AuthEnv) (c : Option CacheData) (hc : Bool) :
    strategy4 { env with cache := c } hc = strategy4 env hc := rfl

/-- C5.  A cached credential whose expiry lies within the 5-minute safety
buffer of the current time (`expires * 1000 < now + 300000`, with a nonzero
`expires` — `0` encodes "no expiry known" through JavaScript truthiness), or
whose stored timestamp is more than 24 hours old, is rejected by the cache
read, and `getValidToken` then behaves exactly as if no cache existed,
falling through to the next acquisition strategy. -/
theorem loadTokenFromCache_rejects_stale (env : AuthEnv) (hc : Bool) (td : CacheData)
    (hcache : env.cache = some td)
    (hstale : (∃ e, td.expires = some e ∧ e ≠ 0 ∧ e * 1000 < env.now + 300000) ∨
              env.now - td.timestamp > 24 * 60 * 60 * 1000) :
    loadTokenFromCache env.cache env.now = none ∧
    getValidToken env hc = getValidToken { env with cache := none } hc := by
  have hnone : loadTokenFromCache env.cache env.now = none := by
    rw [hcache]
    unfold loadTokenFromCache
    rcases hstale with ⟨e, he, he0, hlt⟩ | hold
    · simp [cacheExpired, he, he0, hlt]
    · by_cases hex : cacheExpired td env.now = true
      · simp [hex]
      · have hto : cacheTooOld td env.now = true := by
          unfold cacheTooOld; simpa using hold
        simp [hex, hto]
  refine ⟨hnone, ?_⟩
  have h1 : strategy1 env = none := by unfold strategy1; rw [hnone]
  have h1' : strategy1 { env with cache := none } = none := rfl
  unfold getValidToken
  rw [h1, h1']
  rfl

theorem loadTokenFromCache_rejects_stale_witness :
    loadTokenFromCache c5DemoEnv.cache c5DemoEnv.now = none ∧
    getValidToken c5DemoEnv true = getValidToken { c5DemoEnv with cache := none } true :=
  loadTokenFromCache_rejects_stale c5DemoEnv true c5DemoCache (by rfl)
    (Or.inl ⟨1700000010, by rfl, by decide, by decide⟩)

/-- C3.  A non-rate-limit failure with attempts `n` below the retry limit
sleeps exactly `retryDelay * 2 ^ (n - 1)` and re-inserts the job at the head
of the pending queue (no terminal event); once `n` has reached the limit the
job is instead appended to the failed collection, the failure counter is
bumped and the terminal `taskFailed` event is emitted, with no sleep and no
re-queue.  (`n ≥ 1` always holds at a failure: `processTask` increments
`attempts` before any fallible work.) -/
theorem handleTaskError_exponential_backoff
    (retryAttempts retryDelay rateLimitBackoff : Nat) (queue failed : List Task)
    (statsFailed : Nat) (task : Task) (err : TaskError)
    (h429 : err.is429 = false) (_hpos : 1 ≤ task.attempts) :
    (task.attempts < retryAttempts →
      handleTaskError retryAttempts retryDelay rateLimitBackoff queue failed statsFailed task err =
        { sleeps := [retryDelay * 2 ^ (task.attempts - 1)],
          queue := { task with error := some err.message } :: queue,
          failed := failed, statsFailed := statsFailed, emittedFailed := false }) ∧
    (retryAttempts ≤ task.attempts →
      handleTaskError retryAttempts retryDelay rateLimitBackoff queue failed statsFailed task err =
        { sleeps := [], queue := queue,
          failed := failed ++
            [{ task with error := some err.message, status := "failed" }],
          statsFailed := statsFailed + 1, emittedFailed := true }) := by
  constructor
  · intro hlt
    simp [handleTaskError, h429, hlt]
  · intro hge
    have hnlt : ¬ task.attempts < retryAttempts := by omega
    simp [handleTaskError, h429, hnlt]

theorem handleTaskError_exponential_backoff_witness :
    (handleTaskError 3 5000 60000 [] [] 0
        { id := 7, attempts := 2, status := "downloading", error := none }
        { message := "boom", is429 := false } =
      { sleeps := [10000],
        queue := [{ id := 7, attempts := 2, status := "downloading", error := some "boom" }],
        failed := [], statsFailed := 0, emittedFailed := false }) ∧
    (handleTaskError 3 5000 60000 [] [] 0
        { id := 8, attempts := 3, status := "downloading", error := none }
        { message := "boom", is429 := false } =
      { sleeps := [], queue := [],
        failed := [{ id := 8, attempts := 3, status := "failed", error := some "boom" }],
        statsFailed := 1, emittedFailed := true }) :=
  ⟨(handleTaskError_exponential_backoff 3 5000 60000 [] [] 0
      { id := 7, attempts := 2, status := "downloading", error := none }
      { message := "boom", is429 := false } (by decide) (by decide)).1 (by decide),
   (handleTaskError_exponential_backoff 3 5000 60000 [] [] 0
      { id := 8, attempts := 3, status := "downloading", error := none }
      { message := "boom", is429 := false } (by decide) (by decide)).2 (by decide)⟩

/-- C4.  A failure carrying an HTTP 429 response with attempts below the
retry limit sleeps the fixed rate-limit backoff window (not the exponential
schedule) and re-inserts the job at the head of the pending queue — ahead of
every job already pending — without touching the failed collection or
emitting a terminal event. -/
theorem handleTaskError_rate_limited
    (retryAttempts retryDelay rateLimitBackoff : Nat) (queue failed : List Task)
    (statsFailed : Nat) (task : Task) (err : TaskError)
    (h429 : err.is429 = true) (hlt : task.attempts < retryAttempts) :
    handleTaskError retryAttempts retryDelay rateLimitBackoff queue failed statsFailed task err =
      { sleeps := [rateLimitBackoff],
        queue := { task with error := some err.message } :: queue,
        failed := failed, statsFailed := statsFailed, emittedFailed := false } := by
  simp [handleTaskError, h429, hlt]

theorem handleTaskError_rate_limited_witness :
    handleTaskError 3 5000 60000
      [{ id := 2, attempts := 0, status := "queued", error := none }] [] 0
      { id := 9, attempts := 1, status := "downloading", error := none }
      { message := "Request failed with status code 429", is429 := true } =
    { sleeps := [60000],
      queue := [{ id := 9, attempts := 1, status := "downloading",
                  error := some "Request failed with status code 429" },
                { id := 2, attempts := 0, status := "queued", error := none }],
      failed := [], statsFailed := 0, emittedFailed := false } :=
  handleTaskError_rate_limited 3 5000 60000
    [{ id := 2, attempts := 0, status := "queued", error := none }] [] 0
    { id := 9, attempts := 1, status := "downloading", error := none }
    { message := "Request failed with status code 429", is429 := true }
    (by decide) (by decide)

lemma buildCommand_intl_ok (task : DlTask) (env : DlEnv) (pl idts : StreamIds)
    (iu : String) (hinc : task.internationalAudio.isSome = true)
    (hrace : env.isRaceContent = true)
    (hpl : env.plDetails = .ok pl) (hiu : env.intlUrl = .ok iu)
    (hid : env.intlDetails = .ok idts) :
    buildCommand task env = .ok (buildCommandIntl task env.f1tvUrl pl iu idts) := by
  simp [buildCommand, hpl, hiu, hid, hinc, hrace]
  rfl

lemma buildCommand_plain_ok (task : DlTask) (env : DlEnv) (pl : StreamIds)
    (hcond : (task.internationalAudio.isSome && env.isRaceContent) = false)
    (hpl : env.plDetails = .ok pl) :
    buildCommand task env = .ok (buildCommandPlain task env.f1tvUrl pl) := by
  simp [buildCommand, hpl, hcond]

/-- C6 counterexample.  The claim says a secondary-audio selection on
non-eligible (non-race) content makes plan building fail with an
`UnsupportedContent` error, producing no transport plan.  In the source there
is no such error path: for this concrete non-race selection with
international audio requested, `buildCommand` succeeds and produces a plan. -/
theorem buildCommand_no_unsupported_content_error :
    c6DemoTask.internationalAudio = some "nld" ∧
    c6DemoEnv.isRaceContent = false ∧
    (buildCommand c6DemoTask c6DemoEnv).isOk = true :=
  ⟨rfl, rfl, rfl⟩

/-- C6 amended.  When the content is not a live race, a secondary-audio
request is silently ignored: the command built is identical to the one built
with no international audio at all (single input, single audio map, no
error). -/
theorem buildCommand_ignores_intl_on_nonrace (task : DlTask) (env : DlEnv) (lang : String)
    (hrace : env.isRaceContent = false) :
    buildCommand { task with internationalAudio := some lang } env =
      buildCommand { task with internationalAudio := none } env := by
  cases hpl : env.plDetails with
  | error e => simp only [buildCommand, hpl]; rfl
  | ok pl =>
    rw [buildCommand_plain_ok { task with internationalAudio := some lang } env pl
        (by simp [hrace]) hpl,
      buildCommand_plain_ok { task with internationalAudio := none } env pl
        (by simp [hrace]) hpl]
    rfl

theorem buildCommand_ignores_intl_on_nonrace_witness :
    buildCommand { c6DemoTask with internationalAudio := some "nld" } c6DemoEnv =
      buildCommand { c6DemoTask with internationalAudio := none } c6DemoEnv :=
  buildCommand_ignores_intl_on_nonrace c6DemoTask c6DemoEnv "nld" (by rfl)

/-- C7 counterexample.  The claim says the map directives of a plan with
secondary audio are ordered primary video, primary audio, then (when the
transport requires it) secondary video, then secondary audio.  The source
emits primary video, *secondary video*, primary audio, secondary audio
(`audioStreamMapping` on lines 696-700 opens with the international video
selector): at this concrete input the actual map order differs from both
orders the claim allows. -/
theorem buildCommand_map_order_counterexample :
    (buildCommand c7DemoTask c7DemoEnv).map (fun cmd => mapSels cmd.outputOptions) =
      .ok [Sel.dashVideo 0 5, Sel.dashVideo 1 11, Sel.dashAudioAll 0, Sel.dashAudioId 1 3] ∧
    [Sel.dashVideo 0 5, Sel.dashVideo 1 11, Sel.dashAudioAll 0, Sel.dashAudioId 1 3] ≠
      [Sel.dashVideo 0 5, Sel.dashAudioAll 0, Sel.dashAudioId 1 3] ∧
    [Sel.dashVideo 0 5, Sel.dashVideo 1 11, Sel.dashAudioAll 0, Sel.dashAudioId 1 3] ≠
      [Sel.dashVideo 0 5, Sel.dashAudioAll 0, Sel.dashVideo 1 11, Sel.dashAudioId 1 3] :=
  ⟨rfl, by decide, by decide⟩

/-- C7 amended.  In every transport plan that includes the secondary audio
track, the map directives appear in the fixed order primary video, secondary
(international) video, primary audio, secondary audio — the secondary video
map is present for both transport kinds. -/
theorem buildCommand_map_order (task : DlTask) (env : DlEnv) (lang : String)
    (pl idts : StreamIds) (iu : String)
    (hintl : task.internationalAudio = some lang)
    (hrace : env.isRaceContent = true)
    (hpl : env.plDetails = .ok pl) (hiu : env.intlUrl = .ok iu)
    (hid : env.intlDetails = .ok idts) :
    (buildCommand task env).map (fun cmd => mapSels cmd.outputOptions) =
      .ok [ videoSelect (useDashOf env.f1tvUrl) pl.videoId,
            intlVideoSelect (useDashOf env.f1tvUrl) idts.videoId,
            audioSelect (useDashOf env.f1tvUrl) pl.videoId,
            intlAudioSelect (useDashOf env.f1tvUrl) pl.videoId idts.audioId ] := by
  have hinc : task.internationalAudio.isSome = true := by simp [hintl]
  rw [buildCommand_intl_ok task env pl idts iu hinc hrace hpl hiu hid]
  by_cases hf : (task.format == "mp4") = true <;>
    simp [Except.map, buildCommandIntl, mkOptions, mapSels, intlCodecParams, hf]

theorem buildCommand_map_order_witness :
    (buildCommand c7DemoTask c7DemoEnv).map (fun cmd => mapSels cmd.outputOptions) =
      .ok [ videoSelect (useDashOf c7DemoEnv.f1tvUrl) 5,
            intlVideoSelect (useDashOf c7DemoEnv.f1tvUrl) 11,
            audioSelect (useDashOf c7DemoEnv.f1tvUrl) 5,
            intlAudioSelect (useDashOf c7DemoEnv.f1tvUrl) 5 3 ] :=
  buildCommand_map_order c7DemoTask c7DemoEnv "deu" ⟨5, 2⟩ ⟨11, 3⟩
    "https://example.com/intl/index.mpd" (by rfl) (by rfl) (by rfl) (by rfl) (by rfl)

lemma disposition_default_infix_intlCodecParams (lang : String) :
    [FfOpt.arg "-disposition:a:0", FfOpt.arg "default"] <:+: intlCodecParams lang :=
  ⟨[.arg "-c:a", .arg "copy", .arg "-metadata:s:a:0", .arg "language=eng"],
   [.arg "-metadata:s:a:1", .arg ("language=" ++ lang), .arg "-disposition:a:1",
    .arg "0"], rfl⟩

lemma disposition_clear_infix_intlCodecParams (lang : String) :
    [FfOpt.arg "-disposition:a:1", FfOpt.arg "0"] <:+: intlCodecParams lang :=
  ⟨[.arg "-c:a", .arg "copy", .arg "-metadata:s:a:0", .arg "language=eng",
    .arg "-disposition:a:0", .arg "default", .arg "-metadata:s:a:1",
    .arg ("language=" ++ lang)], [], rfl⟩

lemma intlCodecParams_infix_mkOptions (v : Sel) (asm : List FfOpt) (lang fmt : String) :
    intlCodecParams lang <:+: mkOptions v asm (intlCodecParams lang) fmt := by
  unfold mkOptions
  by_cases hf : (fmt == "mp4") = true
  · rw [if_pos hf]
    exact ⟨[FfOpt.map v] ++ asm ++ [.arg "-c:v", .arg "copy"],
      [.arg "-bsf:a", .arg "aac_adtstoasc", .arg "-movflags", .arg "faststart",
       .arg "-y"], by simp⟩
  · rw [if_neg hf]
    exact ⟨[FfOpt.map v] ++ asm ++ [.arg "-c:v", .arg "copy"], [.arg "-y"], by simp⟩

/-- C8 counterexample.  The claim quantifies over every transport plan
"built with a secondary-audio selection".  For this concrete secondary-audio
selection on non-race content the source builds a plan with exactly *one*
audio map (the request is silently dropped, line 683), not two. -/
theorem buildCommand_dual_audio_counterexample :
    c8DemoTask.internationalAudio = some "fra" ∧
    (buildCommand c8DemoTask c8DemoEnv).map
        (fun cmd => (audioMaps cmd.outputOptions).length) = .ok 1 :=
  ⟨rfl, rfl⟩

/-- C8 amended.  Every transport plan in which the secondary audio track is
actually included (secondary-audio selection on live race content) contains
exactly two audio map directives, the primary audio before the secondary
audio, with the primary audio stream (`a:0`, the first audio map in output
order) given the `default` disposition and the secondary (`a:1`) disposition
cleared to `0`. -/
theorem buildCommand_dual_audio (task : DlTask) (env : DlEnv) (lang : String)
    (pl idts : StreamIds) (iu : String)
    (hintl : task.internationalAudio = some lang)
    (hrace : env.isRaceContent = true)
    (hpl : env.plDetails = .ok pl) (hiu : env.intlUrl = .ok iu)
    (hid : env.intlDetails = .ok idts) :
    ∃ cmd, buildCommand task env = .ok cmd ∧
      audioMaps cmd.outputOptions =
        [ audioSelect (useDashOf env.f1tvUrl) pl.videoId,
          intlAudioSelect (useDashOf env.f1tvUrl) pl.videoId idts.audioId ] ∧
      (audioMaps cmd.outputOptions).length = 2 ∧
      [FfOpt.arg "-disposition:a:0", FfOpt.arg "default"] <:+: cmd.outputOptions ∧
      [FfOpt.arg "-disposition:a:1", FfOpt.arg "0"] <:+: cmd.outputOptions := by
  have hinc : task.internationalAudio.isSome = true := by simp [hintl]
  refine ⟨buildCommandIntl task env.f1tvUrl pl iu idts,
    buildCommand_intl_ok task env pl idts iu hinc hrace hpl hiu hid, ?_, ?_, ?_, ?_⟩
  · cases hud : useDashOf env.f1tvUrl <;>
      by_cases hf : (task.format == "mp4") = true <;>
        simp [buildCommandIntl, mkOptions, mapSels, audioMaps, intlCodecParams, hf, hud,
          videoSelect, audioSelect, intlVideoSelect, intlAudioSelect, Sel.isAudio]
  · cases hud : useDashOf env.f1tvUrl <;>
      by_cases hf : (task.format == "mp4") = true <;>
        simp [buildCommandIntl, mkOptions, mapSels, audioMaps, intlCodecParams, hf, hud,
          videoSelect, audioSelect, intlVideoSelect, intlAudioSelect, Sel.isAudio]
  · exact (disposition_default_infix_intlCodecParams _).trans
      (intlCodecParams_infix_mkOptions _ _ _ _)
  · exact (disposition_clear_infix_intlCodecParams _).trans
      (intlCodecParams_infix_mkOptions _ _ _ _)

theorem buildCommand_dual_audio_witness :
    ∃ cmd, buildCommand c7DemoTask c7DemoEnv = .ok cmd ∧
      audioMaps cmd.outputOptions =
        [ audioSelect (useDashOf c7DemoEnv.f1tvUrl) 5,
          intlAudioSelect (useDashOf c7DemoEnv.f1tvUrl) 5 3 ] ∧
      (audioMaps cmd.outputOptions).length = 2 ∧
      [FfOpt.arg "-disposition:a:0", FfOpt.arg "default"] <:+: cmd.outputOptions ∧
      [FfOpt.arg "-disposition:a:1", FfOpt.arg "0"] <:+: cmd.outputOptions :=
  buildCommand_dual_audio c7DemoTask c7DemoEnv "deu" ⟨5, 2⟩ ⟨11, 3⟩
    "https://example.com/intl/index.mpd" (by rfl) (by rfl) (by rfl) (by rfl) (by rfl)

lemma ids_append (l m : List Task) : ids (l ++ m) = ids l ++ ids m :=
  List.map_append _ _ _

lemma ids_cons (t : Task) (l : List Task) : ids (t :: l) = t.id :: ids l := rfl

lemma mem_ids_of_mem {t : Task} {l : List Task} (h : t ∈ l) : t.id ∈ ids l :=
  List.mem_map.mpr ⟨t, h, rfl⟩

lemma ids_updateById (l : List Task) (i : Nat) (f : Task → Task)
    (hf : ∀ t, (f t).id = t.id) : ids (updateById l i f) = ids l := by
  induction l with
  | nil => rfl
  | cons t ts ih =>
    by_cases h : t.id = i <;> simp [updateById, ids, h, hf] at ih ⊢ <;>
      simpa [updateById, ids] using ih

lemma length_updateById (l : List Task) (i : Nat) (f : Task → Task) :
    (updateById l i f).length = l.length := by
  simp [updateById]

lemma ids_eraseById (l : List Task) (i : Nat) :
    ids (eraseById l i) = (ids l).erase i := by
  induction l with
  | nil => rfl
  | cons t ts ih =>
    simp only [ids] at ih ⊢
    by_cases h : t.id = i
    · simp [eraseById, h, List.erase_cons]
    · simp [eraseById, h, List.erase_cons, ih]

lemma length_eraseById_le (l : List Task) (i : Nat) :
    (eraseById l i).length ≤ l.length := by
  induction l with
  | nil => exact Nat.le_refl _
  | cons t ts ih =>
    by_cases h : t.id = i
    · simp [eraseById, h]
    · simp only [eraseById, if_neg h, List.length_cons]
      omega

lemma setPhase_same (f : Nat → Option JobPhase) (i : Nat) (p : Option JobPhase) :
    setPhase f i p i = p := by
  simp [setPhase]

lemma setPhase_ne (f : Nat → Option JobPhase) (i : Nat) (p : Option JobPhase)
    {j : Nat} (h : j ≠ i) : setPhase f i p j = f j := by
  simp [setPhase, h]

lemma Step.maxConcurrent_eq {s s2 : SysState} (h : Step s s2) :
    s2.maxConcurrent = s.maxConcurrent := by
  cases h <;> rfl

lemma Step.active_bound {s s2 : SysState} (h : Step s s2)
    (hb : s.active.length ≤ s.maxConcurrent) :
    s2.active.length ≤ s2.maxConcurrent := by
  cases h with
  | enqueue => exact hb
  | launch t rest hq hcap hidle => simpa using hcap
  | succeed => exact Nat.le_trans (length_eraseById_le _ _) hb
  | failSleep => simpa [length_updateById] using hb
  | failDirect => simpa [length_updateById] using hb
  | resumeRequeue => exact hb
  | resumeFail => simpa [length_updateById] using hb
  | finishSplice => exact Nat.le_trans (length_eraseById_le _ _) hb

/-- C1.  At every observable instant of every queue configuration, the
number of jobs in the active set never exceeds `maxConcurrent` (admission,
the only growth of `active`, happens atomically under the
`active.length < maxConcurrent` check of line 527), and the effective
`maxConcurrent` is the constructor `Math.min(requested || 1, 3)` — at most
3 regardless of the requested value. -/
theorem downloadQueue_active_bounded (opts : QueueOptions) (s : SysState)
    (h : Reach (initState opts) s) :
    s.active.length ≤ s.maxConcurrent ∧ s.maxConcurrent ≤ 3 ∧
    s.maxConcurrent = mkMaxConcurrent opts.maxConcurrent := by
  induction h with
  | refl => exact ⟨Nat.zero_le _, Nat.min_le_right _ _, rfl⟩
  | tail hr hs ih =>
    refine ⟨hs.active_bound ih.1, ?_, ?_⟩
    · rw [hs.maxConcurrent_eq]; exact ih.2.1
    · rw [hs.maxConcurrent_eq]; exact ih.2.2

theorem downloadQueue_active_bounded_witness :
    (initState c1DemoOpts).active.length ≤ (initState c1DemoOpts).maxConcurrent ∧
    (initState c1DemoOpts).maxConcurrent ≤ 3 ∧
    (initState c1DemoOpts).maxConcurrent = mkMaxConcurrent c1DemoOpts.maxConcurrent :=
  downloadQueue_active_bounded c1DemoOpts (initState c1DemoOpts) (Reach.refl _)

lemma mem_ids_append_singleton (l : List Task) (t : Task) : t.id ∈ ids (l ++ [t]) := by
  rw [ids_append]
  exact List.mem_append_right _ (by simp [ids])

lemma mem_ids_append_left {i : Nat} {l : List Task} (m : List Task) (h : i ∈ ids l) :
    i ∈ ids (l ++ m) := by
  rw [ids_append]
  exact List.mem_append_left _ h

lemma mem_ids_append_singleton_elim {i : Nat} {l : List Task} {t : Task}
    (h : i ∈ ids (l ++ [t])) : i ∈ ids l ∨ i = t.id := by
  rw [ids_append] at h
  rcases List.mem_append.mp h with h | h
  · exact Or.inl h
  · simp only [ids, List.map_cons, List.map_nil, List.mem_singleton] at h
    exact Or.inr h

lemma not_mem_ids_append_singleton {i : Nat} {l : List Task} {t : Task}
    (h : i ∉ ids l) (hne : i ≠ t.id) : i ∉ ids (l ++ [t]) := fun hm =>
  (mem_ids_append_singleton_elim hm).elim h hne

lemma not_mem_ids_cons {i : Nat} {t : Task} {l : List Task}
    (hne : i ≠ t.id) (h : i ∉ ids l) : i ∉ ids (t :: l) := by
  rw [ids_cons]
  intro hm
  rcases List.mem_cons.mp hm with hm | hm
  · exact hne hm
  · exact h hm

lemma nodup_ids_append_singleton {l : List Task} {t : Task}
    (h : (ids l).Nodup) (ha : t.id ∉ ids l) : (ids (l ++ [t])).Nodup := by
  rw [ids_append]
  exact h.append (by simp [ids]) (by simpa [ids, List.disjoint_singleton] using ha)

lemma inv_init (opts : QueueOptions) : Inv (initState opts) := by
  constructor <;> simp [initState, ids]

lemma inv_step {s s2 : SysState} (hI : Inv s) (hs : Step s s2) : Inv s2 := by
  cases hs with
  | enqueue t hstatus hatt hfresh =>
    obtain ⟨hp, hq, ha, hc, hf⟩ := hfresh
    have hpne : ∀ i p, s.phase i = some p → i ≠ t.id := by
      intro i p hip hie
      rw [hie, hp] at hip
      exact absurd hip (by simp)
    refine
      { nodupQ := ?_, nodupA := hI.nodupA, nodupC := hI.nodupC, nodupF := hI.nodupF
        qcDisj := ?_, qfDisj := ?_, cfDisj := hI.cfDisj
        phaseActive := hI.phaseActive
        phaseRun := ?_, phaseSleep := ?_, phaseRequeued := ?_, phaseFailedM := ?_
        cover := ?_ }
    all_goals dsimp only
    · exact nodup_ids_append_singleton hI.nodupQ hq
    · intro i hi
      rw [ids_append] at hi
      rcases List.mem_append.mp hi with hi | hi
      · exact hI.qcDisj i hi
      · simp only [ids, List.map_cons, List.map_nil, List.mem_singleton] at hi
        exact hi ▸ hc
    · intro i hi
      rw [ids_append] at hi
      rcases List.mem_append.mp hi with hi | hi
      · exact hI.qfDisj i hi
      · simp only [ids, List.map_cons, List.map_nil, List.mem_singleton] at hi
        exact hi ▸ hf
    · intro i hip
      have hne := hpne i _ hip
      have := hI.phaseRun i hip
      refine ⟨?_, this.2.1, this.2.2⟩
      exact not_mem_ids_append_singleton this.1 hne
    · intro i b hip
      have hne := hpne i _ hip
      have := hI.phaseSleep i b hip
      refine ⟨?_, this.2.1, this.2.2⟩
      exact not_mem_ids_append_singleton this.1 hne
    · intro i hip
      have := hI.phaseRequeued i hip
      refine ⟨?_, this.2.1, this.2.2⟩
      exact mem_ids_append_left _ this.1
    · intro i hip
      have hne := hpne i _ hip
      have := hI.phaseFailedM i hip
      refine ⟨this.1, ?_, this.2.2⟩
      exact not_mem_ids_append_singleton this.2.1 hne
    · intro i hi
      rcases List.mem_append.mp hi with hi | hi
      · rcases hI.cover i hi with h | h | h | h
        · exact Or.inl (mem_ids_append_left _ h)
        · exact Or.inr (Or.inl h)
        · exact Or.inr (Or.inr (Or.inl h))
        · exact Or.inr (Or.inr (Or.inr h))
      · simp only [List.mem_singleton] at hi
        subst hi
        exact Or.inl (mem_ids_append_singleton _ _)
  | launch t rest hq hcap hidle =>
    have hqids : ids s.queue = t.id :: ids rest := by rw [hq]; rfl
    have hnq := hI.nodupQ
    rw [hqids] at hnq
    have htrest : t.id ∉ ids rest := (List.nodup_cons.mp hnq).1
    have hnrest : (ids rest).Nodup := (List.nodup_cons.mp hnq).2
    have htq : t.id ∈ ids s.queue := by rw [hqids]; exact List.mem_cons_self _ _
    have hta : t.id ∉ ids s.active := by
      intro hmem
      have := (hI.phaseActive t.id).mpr hmem
      rw [hidle] at this
      exact absurd this (by simp)
    have hrsub : ∀ i, i ∈ ids rest → i ∈ ids s.queue := by
      intro i hi; rw [hqids]; exact List.mem_cons_of_mem _ hi
    have hpne : ∀ i p, s.phase i = some p → i ≠ t.id := by
      intro i p hip hie
      rw [hie, hidle] at hip
      exact absurd hip (by simp)
    refine
      { nodupQ := hnrest, nodupA := ?_, nodupC := hI.nodupC, nodupF := hI.nodupF
        qcDisj := fun i hi => hI.qcDisj i (hrsub i hi)
        qfDisj := fun i hi => hI.qfDisj i (hrsub i hi)
        cfDisj := hI.cfDisj
        phaseActive := ?_, phaseRun := ?_, phaseSleep := ?_
        phaseRequeued := ?_, phaseFailedM := ?_, cover := ?_ }
    all_goals dsimp only
    · exact nodup_ids_append_singleton hI.nodupA hta
    · intro i
      by_cases hie : i = t.id
      · subst hie
        rw [setPhase_same]
        simp only [Option.isSome_some, true_iff]
        rw [ids_append]
        simp [ids]
      · rw [setPhase_ne _ _ _ hie, ids_append]
        rw [hI.phaseActive i]
        simp [ids, hie]
    · intro i hip
      by_cases hie : i = t.id
      · subst hie
        exact ⟨htrest, hI.qcDisj _ htq, hI.qfDisj _ htq⟩
      · rw [setPhase_ne _ _ _ hie] at hip
        have := hI.phaseRun i hip
        exact ⟨fun hmem => this.1 (hrsub i hmem), this.2.1, this.2.2⟩
    · intro i b hip
      by_cases hie : i = t.id
      · subst hie
        rw [setPhase_same] at hip
        exact absurd hip (by simp)
      · rw [setPhase_ne _ _ _ hie] at hip
        have := hI.phaseSleep i b hip
        exact ⟨fun hmem => this.1 (hrsub i hmem), this.2.1, this.2.2⟩
    · intro i hip
      by_cases hie : i = t.id
      · subst hie
        rw [setPhase_same] at hip
        exact absurd hip (by simp)
      · rw [setPhase_ne _ _ _ hie] at hip
        have := hI.phaseRequeued i hip
        have hiq := this.1
        rw [hqids] at hiq
        rcases List.mem_cons.mp hiq with h | h
        · exact absurd h hie
        · exact ⟨h, this.2.1, this.2.2⟩
    · intro i hip
      by_cases hie : i = t.id
      · subst hie
        rw [setPhase_same] at hip
        exact absurd hip (by simp)
      · rw [setPhase_ne _ _ _ hie] at hip
        have := hI.phaseFailedM i hip
        exact ⟨this.1, fun hmem => this.2.1 (hrsub i hmem), this.2.2⟩
    · intro i hi
      rcases hI.cover i hi with h | h | h | h
      · rw [hqids] at h
        rcases List.mem_cons.mp h with h | h
        · refine Or.inr (Or.inl ?_)
          rw [ids_append, h]
          simp [ids]
        · exact Or.inl h
      · refine Or.inr (Or.inl ?_)
        rw [ids_append]
        exact List.mem_append_left _ h
      · exact Or.inr (Or.inr (Or.inl h))
      · exact Or.inr (Or.inr (Or.inr h))
  | succeed t hmem hph =>
    have hta : t.id ∈ ids s.active := mem_ids_of_mem hmem
    have hrun := hI.phaseRun t.id hph
    refine
      { nodupQ := hI.nodupQ, nodupA := ?_, nodupC := ?_, nodupF := hI.nodupF
        qcDisj := ?_, qfDisj := hI.qfDisj, cfDisj := ?_
        phaseActive := ?_, phaseRun := ?_, phaseSleep := ?_
        phaseRequeued := ?_, phaseFailedM := ?_, cover := ?_ }
    all_goals dsimp only
    · rw [ids_eraseById]
      exact hI.nodupA.erase _
    · exact nodup_ids_append_singleton hI.nodupC hrun.2.1
    · intro i hi
      rw [ids_append]
      intro hic
      rcases List.mem_append.mp hic with h | h
      · exact hI.qcDisj i hi h
      · simp only [ids, List.map_cons, List.map_nil, List.mem_singleton] at h
        exact hrun.1 (h ▸ hi)
    · intro i hic
      rw [ids_append] at hic
      rcases List.mem_append.mp hic with h | h
      · exact hI.cfDisj i h
      · simp only [ids, List.map_cons, List.map_nil, List.mem_singleton] at h
        exact h ▸ hrun.2.2
    · intro i
      by_cases hie : i = t.id
      · subst hie
        rw [setPhase_same, ids_eraseById]
        simp only [Option.isSome_none, Bool.false_eq_true, false_iff]
        exact hI.nodupA.not_mem_erase
      · rw [setPhase_ne _ _ _ hie, ids_eraseById, List.mem_erase_of_ne hie]
        exact hI.phaseActive i
    · intro i hip
      by_cases hie : i = t.id
      · subst hie
        rw [setPhase_same] at hip
        exact absurd hip (by simp)
      · rw [setPhase_ne _ _ _ hie] at hip
        have := hI.phaseRun i hip
        exact ⟨this.1, not_mem_ids_append_singleton this.2.1 hie, this.2.2⟩
    · intro i b hip
      by_cases hie : i = t.id
      · subst hie
        rw [setPhase_same] at hip
        exact absurd hip (by simp)
      · rw [setPhase_ne _ _ _ hie] at hip
        have := hI.phaseSleep i b hip
        exact ⟨this.1, not_mem_ids_append_singleton this.2.1 hie, this.2.2⟩
    · intro i hip
      by_cases hie : i = t.id
      · subst hie
        rw [setPhase_same] at hip
        exact absurd hip (by simp)
      · rw [setPhase_ne _ _ _ hie] at hip
        have := hI.phaseRequeued i hip
        exact ⟨this.1, not_mem_ids_append_singleton this.2.1 hie, this.2.2⟩
    · intro i hip
      by_cases hie : i = t.id
      · subst hie
        rw [setPhase_same] at hip
        exact absurd hip (by simp)
      · rw [setPhase_ne _ _ _ hie] at hip
        have := hI.phaseFailedM i hip
        exact ⟨this.1, this.2.1, not_mem_ids_append_singleton this.2.2 hie⟩
    · intro i hi
      rcases hI.cover i hi with h | h | h | h
      · exact Or.inl h
      · by_cases hie : i = t.id
        · subst hie
          exact Or.inr (Or.inr (Or.inl (mem_ids_append_singleton _ _)))
        · refine Or.inr (Or.inl ?_)
          rw [ids_eraseById, List.mem_erase_of_ne hie]
          exact h
      · exact Or.inr (Or.inr (Or.inl (mem_ids_append_left _ h)))
      · exact Or.inr (Or.inr (Or.inr h))
  | failSleep t is429 msg hmem hph hguard =>
    have hids : ids (updateById s.active t.id fun u => { u with error := some msg }) =
        ids s.active := ids_updateById _ _ _ (fun u => rfl)
    refine
      { nodupQ := hI.nodupQ, nodupA := by rw [hids]; exact hI.nodupA
        nodupC := hI.nodupC, nodupF := hI.nodupF
        qcDisj := hI.qcDisj, qfDisj := hI.qfDisj, cfDisj := hI.cfDisj
        phaseActive := ?_, phaseRun := ?_, phaseSleep := ?_
        phaseRequeued := ?_, phaseFailedM := ?_, cover := ?_ }
    all_goals dsimp only
    · intro i
      rw [hids]
      by_cases hie : i = t.id
      · subst hie
        rw [setPhase_same]
        simp only [Option.isSome_some, true_iff]
        exact (hI.phaseActive t.id).mp (by rw [hph]; rfl)
      · rw [setPhase_ne _ _ _ hie]
        exact hI.phaseActive i
    · intro i hip
      by_cases hie : i = t.id
      · subst hie
        rw [setPhase_same] at hip
        exact absurd hip (by simp)
      · rw [setPhase_ne _ _ _ hie] at hip
        exact hI.phaseRun i hip
    · intro i b hip
      by_cases hie : i = t.id
      · subst hie
        exact hI.phaseRun t.id hph
      · rw [setPhase_ne _ _ _ hie] at hip
        exact hI.phaseSleep i b hip
    · intro i hip
      by_cases hie : i = t.id
      · subst hie
        rw [setPhase_same] at hip
        exact absurd hip (by simp)
      · rw [setPhase_ne _ _ _ hie] at hip
        exact hI.phaseRequeued i hip
    · intro i hip
      by_cases hie : i = t.id
      · subst hie
        rw [setPhase_same] at hip
        exact absurd hip (by simp)
      · rw [setPhase_ne _ _ _ hie] at hip
        exact hI.phaseFailedM i hip
    · intro i hi
      rcases hI.cover i hi with h | h | h | h
      · exact Or.inl h
      · exact Or.inr (Or.inl (by rw [hids]; exact h))
      · exact Or.inr (Or.inr (Or.inl h))
      · exact Or.inr (Or.inr (Or.inr h))
  | failDirect t msg hmem hph hexh =>
    have hrun := hI.phaseRun t.id hph
    have hids : ids (updateById s.active t.id
        fun u => { u with error := some msg, status := "failed" }) = ids s.active :=
      ids_updateById _ _ _ (fun u => rfl)
    refine
      { nodupQ := hI.nodupQ, nodupA := by rw [hids]; exact hI.nodupA
        nodupC := hI.nodupC, nodupF := ?_
        qcDisj := hI.qcDisj, qfDisj := ?_, cfDisj := ?_
        phaseActive := ?_, phaseRun := ?_, phaseSleep := ?_
        phaseRequeued := ?_, phaseFailedM := ?_, cover := ?_ }
    all_goals dsimp only
    · exact nodup_ids_append_singleton hI.nodupF hrun.2.2
    · intro i hi
      rw [ids_append]
      intro hif
      rcases List.mem_append.mp hif with h | h
      · exact hI.qfDisj i hi h
      · simp only [ids, List.map_cons, List.map_nil, List.mem_singleton] at h
        exact hrun.1 (h ▸ hi)
    · intro i hic
      rw [ids_append]
      intro hif
      rcases List.mem_append.mp hif with h | h
      · exact hI.cfDisj i hic h
      · simp only [ids, List.map_cons, List.map_nil, List.mem_singleton] at h
        exact hrun.2.1 (h ▸ hic)
    · intro i
      rw [hids]
      by_cases hie : i = t.id
      · subst hie
        rw [setPhase_same]
        simp only [Option.isSome_some, true_iff]
        exact (hI.phaseActive t.id).mp (by rw [hph]; rfl)
      · rw [setPhase_ne _ _ _ hie]
        exact hI.phaseActive i
    · intro i hip
      by_cases hie : i = t.id
      · subst hie
        rw [setPhase_same] at hip
        exact absurd hip (by simp)
      · rw [setPhase_ne _ _ _ hie] at hip
        have := hI.phaseRun i hip
        exact ⟨this.1, this.2.1, not_mem_ids_append_singleton this.2.2 hie⟩
    · intro i b hip
      by_cases hie : i = t.id
      · subst hie
        rw [setPhase_same] at hip
        exact absurd hip (by simp)
      · rw [setPhase_ne _ _ _ hie] at hip
        have := hI.phaseSleep i b hip
        exact ⟨this.1, this.2.1, not_mem_ids_append_singleton this.2.2 hie⟩
    · intro i hip
      by_cases hie : i = t.id
      · subst hie
        rw [setPhase_same] at hip
        exact absurd hip (by simp)
      · rw [setPhase_ne _ _ _ hie] at hip
        have := hI.phaseRequeued i hip
        exact ⟨this.1, this.2.1, not_mem_ids_append_singleton this.2.2 hie⟩
    · intro i hip
      by_cases hie : i = t.id
      · subst hie
        exact ⟨mem_ids_append_singleton _ _, hrun.1, hrun.2.1⟩
      · rw [setPhase_ne _ _ _ hie] at hip
        have := hI.phaseFailedM i hip
        exact ⟨mem_ids_append_left _ this.1, this.2.1, this.2.2⟩
    · intro i hi
      rcases hI.cover i hi with h | h | h | h
      · exact Or.inl h
      · exact Or.inr (Or.inl (by rw [hids]; exact h))
      · exact Or.inr (Or.inr (Or.inl h))
      · exact Or.inr (Or.inr (Or.inr (mem_ids_append_left _ h)))
  | resumeRequeue t b hmem hph hatt =>
    have hslp := hI.phaseSleep t.id b hph
    refine
      { nodupQ := ?_, nodupA := hI.nodupA, nodupC := hI.nodupC, nodupF := hI.nodupF
        qcDisj := ?_, qfDisj := ?_, cfDisj := hI.cfDisj
        phaseActive := ?_, phaseRun := ?_, phaseSleep := ?_
        phaseRequeued := ?_, phaseFailedM := ?_, cover := ?_ }
    all_goals dsimp only
    · rw [ids_cons]
      exact List.nodup_cons.mpr ⟨hslp.1, hI.nodupQ⟩
    · intro i hi
      rw [ids_cons] at hi
      rcases List.mem_cons.mp hi with h | h
      · exact h ▸ hslp.2.1
      · exact hI.qcDisj i h
    · intro i hi
      rw [ids_cons] at hi
      rcases List.mem_cons.mp hi with h | h
      · exact h ▸ hslp.2.2
      · exact hI.qfDisj i h
    · intro i
      by_cases hie : i = t.id
      · subst hie
        rw [setPhase_same]
        simp only [Option.isSome_some, true_iff]
        exact (hI.phaseActive t.id).mp (by rw [hph]; rfl)
      · rw [setPhase_ne _ _ _ hie]
        exact hI.phaseActive i
    · intro i hip
      by_cases hie : i = t.id
      · subst hie
        rw [setPhase_same] at hip
        exact absurd hip (by simp)
      · rw [setPhase_ne _ _ _ hie] at hip
        have := hI.phaseRun i hip
        exact ⟨not_mem_ids_cons hie this.1, this.2.1, this.2.2⟩
    · intro i b2 hip
      by_cases hie : i = t.id
      · subst hie
        rw [setPhase_same] at hip
        exact absurd hip (by simp)
      · rw [setPhase_ne _ _ _ hie] at hip
        have := hI.phaseSleep i b2 hip
        exact ⟨not_mem_ids_cons hie this.1, this.2.1, this.2.2⟩
    · intro i hip
      by_cases hie : i = t.id
      · subst hie
        refine ⟨?_, hslp.2.1, hslp.2.2⟩
        rw [ids_cons]
        exact List.mem_cons_self _ _
      · rw [setPhase_ne _ _ _ hie] at hip
        have := hI.phaseRequeued i hip
        refine ⟨?_, this.2.1, this.2.2⟩
        rw [ids_cons]
        exact List.mem_cons_of_mem _ this.1
    · intro i hip
      by_cases hie : i = t.id
      · subst hie
        rw [setPhase_same] at hip
        exact absurd hip (by simp)
      · rw [setPhase_ne _ _ _ hie] at hip
        have := hI.phaseFailedM i hip
        exact ⟨this.1, not_mem_ids_cons hie this.2.1, this.2.2⟩
    · intro i hi
      rcases hI.cover i hi with h | h | h | h
      · exact Or.inl (by rw [ids_cons]; exact List.mem_cons_of_mem _ h)
      · exact Or.inr (Or.inl h)
      · exact Or.inr (Or.inr (Or.inl h))
      · exact Or.inr (Or.inr (Or.inr h))
  | resumeFail t hmem hph hexh =>
    have hslp := hI.phaseSleep t.id true hph
    have hids : ids (updateById s.active t.id fun u => { u with status := "failed" }) =
        ids s.active := ids_updateById _ _ _ (fun u => rfl)
    refine
      { nodupQ := hI.nodupQ, nodupA := by rw [hids]; exact hI.nodupA
        nodupC := hI.nodupC, nodupF := ?_
        qcDisj := hI.qcDisj, qfDisj := ?_, cfDisj := ?_
        phaseActive := ?_, phaseRun := ?_, phaseSleep := ?_
        phaseRequeued := ?_, phaseFailedM := ?_, cover := ?_ }
    all_goals dsimp only
    · exact nodup_ids_append_singleton hI.nodupF hslp.2.2
    · intro i hi
      rw [ids_append]
      intro hif
      rcases List.mem_append.mp hif with h | h
      · exact hI.qfDisj i hi h
      · simp only [ids, List.map_cons, List.map_nil, List.mem_singleton] at h
        exact hslp.1 (h ▸ hi)
    · intro i hic
      rw [ids_append]
      intro hif
      rcases List.mem_append.mp hif with h | h
      · exact hI.cfDisj i hic h
      · simp only [ids, List.map_cons, List.map_nil, List.mem_singleton] at h
        exact hslp.2.1 (h ▸ hic)
    · intro i
      rw [hids]
      by_cases hie : i = t.id
      · subst hie
        rw [setPhase_same]
        simp only [Option.isSome_some, true_iff]
        exact (hI.phaseActive t.id).mp (by rw [hph]; rfl)
      · rw [setPhase_ne _ _ _ hie]
        exact hI.phaseActive i
    · intro i hip
      by_cases hie : i = t.id
      · subst hie
        rw [setPhase_same] at hip
        exact absurd hip (by simp)
      · rw [setPhase_ne _ _ _ hie] at hip
        have := hI.phaseRun i hip
        exact ⟨this.1, this.2.1, not_mem_ids_append_singleton this.2.2 hie⟩
    · intro i b2 hip
      by_cases hie : i = t.id
      · subst hie
        rw [setPhase_same] at hip
        exact absurd hip (by simp)
      · rw [setPhase_ne _ _ _ hie] at hip
        have := hI.phaseSleep i b2 hip
        exact ⟨this.1, this.2.1, not_mem_ids_append_singleton this.2.2 hie⟩
    · intro i hip
      by_cases hie : i = t.id
      · subst hie
        rw [setPhase_same] at hip
        exact absurd hip (by simp)
      · rw [setPhase_ne _ _ _ hie] at hip
        have := hI.phaseRequeued i hip
        exact ⟨this.1, this.2.1, not_mem_ids_append_singleton this.2.2 hie⟩
    · intro i hip
      by_cases hie : i = t.id
      · subst hie
        exact ⟨mem_ids_append_singleton _ _, hslp.1, hslp.2.1⟩
      · rw [setPhase_ne _ _ _ hie] at hip
        have := hI.phaseFailedM i hip
        exact ⟨mem_ids_append_left _ this.1, this.2.1, this.2.2⟩
    · intro i hi
      rcases hI.cover i hi with h | h | h | h
      · exact Or.inl h
      · exact Or.inr (Or.inl (by rw [hids]; exact h))
      · exact Or.inr (Or.inr (Or.inl h))
      · exact Or.inr (Or.inr (Or.inr (mem_ids_append_left _ h)))
  | finishSplice i p hph hdone =>
    have hia : i ∈ ids s.active := (hI.phaseActive i).mp (by rw [hph]; rfl)
    have helse : i ∈ ids s.queue ∨ i ∈ ids s.failed := by
      rcases hdone with h | h
      · exact Or.inl (hI.phaseRequeued i (h ▸ hph)).1
      · exact Or.inr (hI.phaseFailedM i (h ▸ hph)).1
    refine
      { nodupQ := hI.nodupQ
        nodupA := by rw [ids_eraseById]; exact hI.nodupA.erase _
        nodupC := hI.nodupC, nodupF := hI.nodupF
        qcDisj := hI.qcDisj, qfDisj := hI.qfDisj, cfDisj := hI.cfDisj
        phaseActive := ?_, phaseRun := ?_, phaseSleep := ?_
        phaseRequeued := ?_, phaseFailedM := ?_, cover := ?_ }
    all_goals dsimp only
    · intro j
      by_cases hje : j = i
      · subst hje
        rw [setPhase_same, ids_eraseById]
        simp only [Option.isSome_none, Bool.false_eq_true, false_iff]
        exact hI.nodupA.not_mem_erase
      · rw [setPhase_ne _ _ _ hje, ids_eraseById, List.mem_erase_of_ne hje]
        exact hI.phaseActive j
    · intro j hjp
      by_cases hje : j = i
      · subst hje
        rw [setPhase_same] at hjp
        exact absurd hjp (by simp)
      · rw [setPhase_ne _ _ _ hje] at hjp
        exact hI.phaseRun j hjp
    · intro j b hjp
      by_cases hje : j = i
      · subst hje
        rw [setPhase_same] at hjp
        exact absurd hjp (by simp)
      · rw [setPhase_ne _ _ _ hje] at hjp
        exact hI.phaseSleep j b hjp
    · intro j hjp
      by_cases hje : j = i
      · subst hje
        rw [setPhase_same] at hjp
        exact absurd hjp (by simp)
      · rw [setPhase_ne _ _ _ hje] at hjp
        exact hI.phaseRequeued j hjp
    · intro j hjp
      by_cases hje : j = i
      · subst hje
        rw [setPhase_same] at hjp
        exact absurd hjp (by simp)
      · rw [setPhase_ne _ _ _ hje] at hjp
        exact hI.phaseFailedM j hjp
    · intro j hj
      rcases hI.cover j hj with h | h | h | h
      · exact Or.inl h
      · by_cases hje : j = i
        · subst hje
          rcases helse with h2 | h2
          · exact Or.inl h2
          · exact Or.inr (Or.inr (Or.inr h2))
        · refine Or.inr (Or.inl ?_)
          rw [ids_eraseById, List.mem_erase_of_ne hje]
          exact h
      · exact Or.inr (Or.inr (Or.inl h))
      · exact Or.inr (Or.inr (Or.inr h))

lemma reach_inv {opts : QueueOptions} {s : SysState}
    (h : Reach (initState opts) s) : Inv s := by
  induction h with
  | refl => exact inv_init opts
  | tail hr hs ih => exact inv_step ih hs

lemma c9_step01 : Step c9s0 c9s1 :=
  Step.enqueue c9s0 c9Task rfl rfl
    ⟨rfl, by decide, by decide, by decide, by decide⟩

lemma c9_step12 : Step c9s1 c9s2 :=
  Step.launch c9s1 c9Task [] rfl (by decide) rfl

lemma c9_step23 : Step c9s2 c9s3 :=
  Step.failDirect c9s2 c9ActiveTask "ffmpeg exited with code 1"
    (by decide) rfl (by decide)

lemma c9_trace : Reach c9s0 c9s3 :=
  Reach.tail (Reach.tail (Reach.tail (Reach.refl c9s0) c9_step01) c9_step12) c9_step23

/-- C9 counterexample.  The claim says each submitted job is in exactly one
of pending/active/completed/failed at every suspension point.  The state
reached right after the terminal `failed.push` of `handleTaskError` — the
`await`-resumption boundary before the `finally` block of `processTask`
splices the task out of `active` — has the job in both `active` and
`failed`: a reachable observable instant with double membership. -/
theorem downloadQueue_double_membership :
    Reach (initState c9Opts) c9s3 ∧ 0 ∈ ids c9s3.active ∧ 0 ∈ ids c9s3.failed :=
  ⟨c9_trace, by decide, by decide⟩

/-- C9 amended.  At every observable instant, each submitted job is in
exactly one collection, *except* during the failure-handler handoff window
between the `handleTaskError` insertion and the `finally`-block removal from
`active`: there the job is in exactly two collections, one of which is
always `active` — `active` plus the pending head after a retry re-queue, or
`active` plus `failed` after a terminal failure.  Pending, completed and
failed never overlap each other. -/
theorem downloadQueue_membership_characterization (opts : QueueOptions)
    (s : SysState) (h : Reach (initState opts) s) :
    ∀ i ∈ s.submitted,
      (s.phase i = some .requeued ∧ i ∈ ids s.queue ∧ i ∈ ids s.active ∧
        collCount s i = 2) ∨
      (s.phase i = some .failedMarked ∧ i ∈ ids s.failed ∧ i ∈ ids s.active ∧
        collCount s i = 2) ∨
      collCount s i = 1 := by
  intro i hi
  have hI := reach_inv h
  cases hp : s.phase i with
  | none =>
    refine Or.inr (Or.inr ?_)
    have hna : i ∉ ids s.active := by
      intro hm
      have := (hI.phaseActive i).mpr hm
      rw [hp] at this
      exact absurd this (by simp)
    have ha0 : (ids s.active).count i = 0 := List.count_eq_zero.mpr hna
    rcases hI.cover i hi with h1 | h1 | h1 | h1
    · have hq1 : (ids s.queue).count i = 1 := List.count_eq_one_of_mem hI.nodupQ h1
      have hc0 : (ids s.completed).count i = 0 :=
        List.count_eq_zero.mpr (hI.qcDisj i h1)
      have hf0 : (ids s.failed).count i = 0 :=
        List.count_eq_zero.mpr (hI.qfDisj i h1)
      unfold collCount
      omega
    · exact absurd h1 hna
    · have hc1 : (ids s.completed).count i = 1 := List.count_eq_one_of_mem hI.nodupC h1
      have hq0 : (ids s.queue).count i = 0 :=
        List.count_eq_zero.mpr fun hq => hI.qcDisj i hq h1
      have hf0 : (ids s.failed).count i = 0 :=
        List.count_eq_zero.mpr (hI.cfDisj i h1)
      unfold collCount
      omega
    · have hf1 : (ids s.failed).count i = 1 := List.count_eq_one_of_mem hI.nodupF h1
      have hq0 : (ids s.queue).count i = 0 :=
        List.count_eq_zero.mpr fun hq => hI.qfDisj i hq h1
      have hc0 : (ids s.completed).count i = 0 :=
        List.count_eq_zero.mpr fun hc => hI.cfDisj i hc h1
      unfold collCount
      omega
  | some p =>
    have hia : i ∈ ids s.active := (hI.phaseActive i).mp (by rw [hp]; rfl)
    have ha1 : (ids s.active).count i = 1 := List.count_eq_one_of_mem hI.nodupA hia
    cases p with
    | running =>
      have h3 := hI.phaseRun i hp
      refine Or.inr (Or.inr ?_)
      have hq0 : (ids s.queue).count i = 0 := List.count_eq_zero.mpr h3.1
      have hc0 : (ids s.completed).count i = 0 := List.count_eq_zero.mpr h3.2.1
      have hf0 : (ids s.failed).count i = 0 := List.count_eq_zero.mpr h3.2.2
      unfold collCount
      omega
    | sleeping b =>
      have h3 := hI.phaseSleep i b hp
      refine Or.inr (Or.inr ?_)
      have hq0 : (ids s.queue).count i = 0 := List.count_eq_zero.mpr h3.1
      have hc0 : (ids s.completed).count i = 0 := List.count_eq_zero.mpr h3.2.1
      have hf0 : (ids s.failed).count i = 0 := List.count_eq_zero.mpr h3.2.2
      unfold collCount
      omega
    | requeued =>
      have h3 := hI.phaseRequeued i hp
      refine Or.inl ⟨rfl, h3.1, hia, ?_⟩
      have hq1 : (ids s.queue).count i = 1 := List.count_eq_one_of_mem hI.nodupQ h3.1
      have hc0 : (ids s.completed).count i = 0 := List.count_eq_zero.mpr h3.2.1
      have hf0 : (ids s.failed).count i = 0 := List.count_eq_zero.mpr h3.2.2
      unfold collCount
      omega
    | failedMarked =>
      have h3 := hI.phaseFailedM i hp
      refine Or.inr (Or.inl ⟨rfl, h3.1, hia, ?_⟩)
      have hf1 : (ids s.failed).count i = 1 := List.count_eq_one_of_mem hI.nodupF h3.1
      have hq0 : (ids s.queue).count i = 0 := List.count_eq_zero.mpr h3.2.1
      have hc0 : (ids s.completed).count i = 0 := List.count_eq_zero.mpr h3.2.2
      unfold collCount
      omega

theorem downloadQueue_membership_characterization_witness :
    (c9s3.phase 0 = some .requeued ∧ 0 ∈ ids c9s3.queue ∧ 0 ∈ ids c9s3.active ∧
      collCount c9s3 0 = 2) ∨
    (c9s3.phase 0 = some .failedMarked ∧ 0 ∈ ids c9s3.failed ∧ 0 ∈ ids c9s3.active ∧
      collCount c9s3 0 = 2) ∨
    collCount c9s3 0 = 1 :=
  downloadQueue_membership_characterization c9Opts c9s3 c9_trace 0 (by decide)

/-- C10.  `clearHistory` empties the completed and failed collections and
leaves the pending queue, the active set, and every stats counter
(`totalQueued`, `completed`, `failed`, …) untouched; a `getStatus` call
after it therefore reports `completedDownloads`/`failedDownloads` as `0`
while `stats.completed` and `stats.failed` keep their prior values. -/
theorem clearHistory_frame (s : SysState) :
    (clearHistory s).queue = s.queue ∧
    (clearHistory s).active = s.active ∧
    (clearHistory s).stats = s.stats ∧
    (clearHistory s).completed = [] ∧
    (clearHistory s).failed = [] ∧
    getStatus (clearHistory s) =
      { getStatus s with completedDownloads := 0, failedDownloads := 0 } ∧
    (getStatus (clearHistory s)).stats.completed = s.stats.completed ∧
    (getStatus (clearHistory s)).stats.failed = s.stats.failed :=
  ⟨rfl, rfl, rfl, rfl, rfl, rfl, rfl, rfl⟩

end F1tvDl
